import Mathlib

/-!
Verification of the spatial-sampling and crop-tiling engine of `seismiqb`
(`src/seismiqb/src/cubeset.py`), shallowly embedded in Lean 4.

Coordinates and shapes are modelled as integers (`ℤ`); lists model numpy
1-D arrays of Python ints; `Except String` models Python exceptions.
Every definition is translated from the Python source; the few definitions
that instead follow the natural-language specification (because the code
they describe lives outside the excerpt, or because a refinement claim
compares code against spec) say so in their doc comment.
-/

namespace Seismiqb

/-! ## np.arange and the per-axis grid of make_grid -/

/-- Number of elements of `np.arange(lo, hi, step)` for a positive integer step. -/
def arange_len (lo hi step : ℤ) : ℕ :=
  ((hi - lo).toNat + step.toNat - 1) / step.toNat

/-- Shallow embedding of `np.arange(lo, hi, step)` on integers with positive step:
the list `lo, lo + step, lo + 2*step, ...` of all such values below `hi`. -/
def arange (lo hi step : ℤ) : List ℤ :=
  (List.range (arange_len lo hi step)).map (fun (i : ℕ) => lo + (i : ℤ) * step)

/-- Embedding of `_make_axis_grid(axis_range, stride, length, crop_shape)`
(cubeset.py lines 407-412):

    grid = np.arange(*axis_range, stride)
    grid_ = [x for x in grid if x + crop_shape < length]
    if len(grid) != len(grid_):
        grid_ += [axis_range[1] - crop_shape]
    return sorted(grid_)

Note that the filter bound is `length` (the volume extent on the axis), not
the upper end of `axis_range`. -/
def make_axis_grid (lo hi stride length crop : ℤ) : List ℤ :=
  let grid := arange lo hi stride
  let grid_f := grid.filter (fun x => decide (x + crop < length))
  let grid_e := if grid.length = grid_f.length then grid_f else grid_f ++ [hi - crop]
  List.insertionSort (· ≤ ·) grid_e

/-- Modelled from the spec (section 4.2), NOT from the code: the per-axis rule as the
specification words it — keep every natural anchor `a` with `a + crop_shape < range.high`,
and when the kept anchors leave a gap before `range.high` (no kept anchor is flush with it),
append exactly one extra anchor `range.high - crop_shape`.  Used only to compare the
specified rule against the implemented `make_axis_grid`. -/
def make_axis_grid_spec (lo hi stride crop : ℤ) : List ℤ :=
  let grid := arange lo hi stride
  let kept := grid.filter (fun x => decide (x + crop < hi))
  if kept.any (fun x => decide (x + crop = hi)) then List.insertionSort (· ≤ ·) kept
  else List.insertionSort (· ≤ ·) (kept ++ [hi - crop])

/-! ## Batch paging -/

/-- Embedding of the paging generator expression
`(grid[i:i+batch_size] for i in range(0, len(grid), batch_size))`
(cubeset.py lines 429-430, 584-585, 745-746): the list of successive slices. -/
def chunk (bs : ℕ) (l : List α) : List (List α) :=
  (List.range ((l.length + bs - 1) / bs)).map (fun i => (l.drop (i * bs)).take bs)

/-- Embedding of `- (-len(grid) // batch_size)` (cubeset.py line 443): Python `//`
is floor division, i.e. `Int.fdiv`. -/
def py_ceil_iters (n bs : ℕ) : ℤ :=
  -(Int.fdiv (-(n : ℤ)) (bs : ℤ))

/-- Python `min` over a nonempty column of the grid, as a fold from the head. -/
def col_min (x : ℤ) (xs : List ℤ) : ℤ := xs.foldl min x

/-! ## make_grid -/

/-- The triple nested loop of cubeset.py lines 420-425: the cartesian product of the
three per-axis grids, axis-0-major, axis-1-next, axis-2-fastest, each point tagged
with the cube name. -/
def grid_product (cn : String) (ils xls hhs : List ℤ) : List (String × ℤ × ℤ × ℤ) :=
  ils.flatMap fun il => xls.flatMap fun xl => hhs.map fun hh => (cn, il, xl, hh)

/-- The fields of `SeismicGeometry` that `make_grid` reads. -/
structure Geom where
  ilines_len : ℤ
  xlines_len : ℤ
  depth : ℤ
deriving DecidableEq

/-- Everything `make_grid` stores on success (`grid_gen`, `grid_iters`, `grid_info`). -/
structure GridResult where
  grid : List (String × ℤ × ℤ × ℤ)
  offsets : ℤ × ℤ × ℤ
  predict_shape : ℤ × ℤ × ℤ
  grid_array : List (ℤ × ℤ × ℤ)
  grid_batches : List (List (String × ℤ × ℤ × ℤ))
  grid_iters : ℤ
deriving DecidableEq

/-- Embedding of `SeismicCubeset.make_grid` (cubeset.py lines 371-452).
`strides = none` models the Python default `strides = strides or crop_shape`.
The two `ValueError` range checks are the source's lines 396-404.  After the
grid is built, the generator expression at lines 429-430 eagerly evaluates its
outermost iterable `range(0, len(grid), batch_size)`, which raises `ValueError`
when `batch_size` is zero — before the offset computation; then `min(grid[:, 1])`
(line 432) raises when the grid is empty, which happens exactly when some
range is degenerate.  Both error branches are modelled in that order. -/
def make_grid (geom : Geom) (cube_name : String)
    (k0 k1 k2 : ℤ) (il_lo il_hi xl_lo xl_hi h_lo h_hi : ℤ)
    (strides : Option (ℤ × ℤ × ℤ)) (batch_size : ℕ) : Except String GridResult :=
  let str := strides.getD (k0, k1, k2)
  if il_lo < 0 ∨ xl_lo < 0 ∨ h_lo < 0 then
    .error "Ranges must contain in the cube."
  else if geom.ilines_len ≤ il_hi ∨ geom.xlines_len ≤ xl_hi ∨ geom.depth ≤ h_hi then
    .error "Ranges must contain in the cube."
  else
    let ilines := make_axis_grid il_lo il_hi str.1 geom.ilines_len k0
    let xlines := make_axis_grid xl_lo xl_hi str.2.1 geom.xlines_len k1
    let hs := make_axis_grid h_lo h_hi str.2.2 geom.depth k2
    if batch_size = 0 then
      .error "range() arg 3 must not be zero"
    else match grid_product cube_name ilines xlines hs with
    | [] => .error "zero-size array reduction: min of empty grid"
    | p :: ps =>
      let off : ℤ × ℤ × ℤ :=
        (col_min p.2.1 (ps.map (fun q => q.2.1)),
         col_min p.2.2.1 (ps.map (fun q => q.2.2.1)),
         col_min p.2.2.2 (ps.map (fun q => q.2.2.2)))
      .ok {
        grid := p :: ps
        offsets := off
        predict_shape := (il_hi - il_lo, xl_hi - xl_lo, h_hi - h_lo)
        grid_array := (p :: ps).map (fun q => (q.2.1 - off.1, q.2.2.1 - off.2.1, q.2.2.2 - off.2.2))
        grid_batches := chunk batch_size (p :: ps)
        grid_iters := py_ceil_iters (p :: ps).length batch_size }

/-- Decidable helper: whether a grid computation succeeded and contains a point. -/
def grid_contains (g : Except String GridResult) (p : String × ℤ × ℤ × ℤ) : Bool :=
  match g with
  | .ok r => decide (p ∈ r.grid)
  | .error _ => false

/-- Decidable helper: whether an `Except` result is an error. -/
def is_error (g : Except String GridResult) : Bool :=
  match g with
  | .ok _ => false
  | .error _ => true

/-- Decidable helper: number of grid points of a successful result (0 on error). -/
def grid_size (g : Except String GridResult) : ℕ :=
  match g with
  | .ok r => r.grid.length
  | .error _ => 0

/-! ## Python generator semantics

`grid_gen = lambda: next(gen)` (cubeset.py lines 442, 586, 753-755) wraps a
generator expression: each call yields the next page; once exhausted, every
further call raises `StopIteration` and the generator never restarts. -/

/-- One pull from a generator whose remaining pages are `st`: the next page and
the rest, or a `StopIteration` error on an exhausted generator. -/
def gen_pull (st : List (List α)) : Except String (List α × List (List α)) :=
  match st with
  | [] => .error "StopIteration"
  | p :: rest => .ok (p, rest)

/-- Pull `n` times, collecting the successfully returned pages; pulls after
exhaustion return nothing and leave the dead generator dead. -/
def gen_pull_n : ℕ → List (List α) → List (List α) × List (List α)
  | 0, st => ([], st)
  | n + 1, st =>
    match gen_pull st with
    | .error _ => ([], st)
    | .ok (p, st') =>
      let rest := gen_pull_n n st'
      (p :: rest.1, rest.2)

/-! ## The sampler expression algebra

`create_sampler` and `modify_sampler` (cubeset.py lines 141-296) build sampler
objects by composing `batchflow` sampler combinators.  The combinators
themselves (`NumpySampler`, `ConstantSampler`, `truncate`, `apply`, `&`, `|`)
live in the `batchflow` package, outside this repository excerpt, so samplers
are embedded as the expression trees these two methods build; draw-time
semantics (weight normalization of a mixture) is modelled from the spec where
needed and marked as such. -/

/-- Sampler expression tree: each constructor is one batchflow combinator as
used in cubeset.py.  `truncListS` is `sampler.truncate(low=[...], high=[...])`;
`truncAxisS` is `sampler.truncate(low, high, prob, expr=lambda p: p[:, axis+1])`;
`applyS` is `sampler.apply(transform)` with the transform kept abstract;
`weightS` is `weight & sampler`; `andS` is `sampler & sampler`;
`orS` is `sampler | sampler`. -/
inductive PySampler where
  | numpyS (kind : String)
  | constantS (ix : String)
  | truncListS (s : PySampler) (low high : List ℚ)
  | truncAxisS (s : PySampler) (low high prob : ℚ) (axis : ℕ)
  | applyS (s : PySampler)
  | weightS (w : ℚ) (s : PySampler)
  | andS (a b : PySampler)
  | orS (a b : PySampler)
deriving DecidableEq

/-- The result of `create_sampler`: the per-cube samplers dict and the combined
dataset sampler. -/
structure CreateSamplerResult where
  samplers : List (String × PySampler)
  combined : PySampler
deriving DecidableEq

/-- Embedding of `p = p or [1/len(self) for _ in self.indices]` (cubeset.py
line 192): a falsy `p` (None or an empty list) is replaced by uniform weights. -/
def resolve_p (indices : List String) (p : Option (List ℚ)) : List ℚ :=
  match p with
  | none => indices.map (fun _ => 1 / (indices.length : ℚ))
  | some q => if q = [] then indices.map (fun _ => 1 / (indices.length : ℚ)) else q

/-- Embedding of `SeismicCubeset.create_sampler` (cubeset.py lines 141-200).
`base ix` stands for whichever sampler the `mode` dispatch produced for cube
`ix` (lines 173-185); the subsequent composition is translated literally:
each per-cube sampler is `base.truncate(low=[0,0,0], high=[1,1,1])` (line 187),
and the combined sampler is the left fold
`sampler = sampler | (p[i] & (ConstantSampler(ix) & samplers[ix].apply(...)))`
(lines 194-198) starting from `0 & NumpySampler('n', dim=4)`.
The `p[i]` indexing is rendered as a zip, which agrees with the source when
`len(p) == len(indices)` (the only case in which the source does not raise). -/
def create_sampler (indices : List String) (base : String → PySampler)
    (p : Option (List ℚ)) : CreateSamplerResult :=
  let lowcut : List ℚ := [0, 0, 0]
  let highcut : List ℚ := [1, 1, 1]
  let samplers := indices.map (fun ix => (ix, PySampler.truncListS (base ix) lowcut highcut))
  let pw := resolve_p indices p
  let combined := (samplers.zip pw).foldl
    (fun acc s => PySampler.orS acc
      (PySampler.weightS s.2 (PySampler.andS (PySampler.constantS s.1.1) (PySampler.applyS s.1.2))))
    (PySampler.weightS 0 (PySampler.numpyS "n"))
  ⟨samplers, combined⟩

/-- The flat list of weighted components of an or-mixture tree, left to right. -/
def mixture_components : PySampler → List (ℚ × PySampler)
  | PySampler.orS a b => mixture_components a ++ mixture_components b
  | PySampler.weightS w s => [(w, s)]
  | s => [(1, s)]

/-- Modelled from the spec (section 4.1): `weighted_mixture` "normalizes weights
internally", so the effective draw probabilities of a mixture are its raw
weights divided by their sum.  The normalization itself happens inside
batchflow, outside this repository excerpt. -/
def effective_weights (s : PySampler) : List ℚ :=
  let ws := (mixture_components s).map Prod.fst
  ws.map (fun w => w / ws.sum)

/-- Whether a mixture component is a per-cube sampler truncated to the unit
cube `[0,1]^3` before any further wrapping, exactly as `create_sampler` mixes
them: `ConstantSampler(ix) & (truncated base).apply(...)`. -/
def is_unit_truncated_volume (c : ℚ × PySampler) : Bool :=
  match c.2 with
  | PySampler.andS (PySampler.constantS _) (PySampler.applyS (PySampler.truncListS _ low high)) =>
    decide (low = [0, 0, 0] ∧ high = [1, 1, 1])
  | _ => false

/-- Embedding of `low, high = low or 0, high or 1` (cubeset.py line 255) for one
numeric argument: Python `or` replaces a falsy value (None, 0, 0.0) by the
default. -/
def py_or_num (x : Option ℚ) (d : ℚ) : ℚ :=
  match x with
  | none => d
  | some v => if v = 0 then d else v

/-- What `modify_sampler` stores: the final sampler and the (low, high) pair it
used after applying the Python `or` defaults. -/
structure ModifyResult where
  sampler : PySampler
  low_used : ℚ
  high_used : ℚ
deriving DecidableEq

/-- Embedding of `SeismicCubeset.modify_sampler` (cubeset.py lines 202-296):
resolve `low`/`high` through Python `or` defaults; truncate only when
`(low != 0) or (high != 1)`; then optionally wrap with the `each` filter, the
`to_cube` rescaling and the `post` transform, each an `apply` node
(`each_start` only parametrizes the `each` closure and is immaterial to the
expression shape). -/
def modify_sampler (s : PySampler) (axis : ℕ) (low high : Option ℚ)
    (each : Option ℤ) (to_cube : Bool) (post : Bool) : ModifyResult :=
  let l := py_or_num low 0
  let h := py_or_num high 1
  let s1 := if l ≠ 0 ∨ h ≠ 1 then PySampler.truncAxisS s l h (h - l) axis else s
  let s2 := match each with
    | some _ => PySampler.applyS s1
    | none => s1
  let s3 := if to_cube then PySampler.applyS s2 else s2
  let s4 := if post then PySampler.applyS s3 else s3
  ⟨s4, l, h⟩

/-- Whether a sampler expression contains an axis truncation (the kind that
`modify_sampler`'s region step would add). -/
def has_axis_truncate : PySampler → Bool
  | PySampler.numpyS _ => false
  | PySampler.constantS _ => false
  | PySampler.truncListS s _ _ => has_axis_truncate s
  | PySampler.truncAxisS _ _ _ _ _ => true
  | PySampler.applyS s => has_axis_truncate s
  | PySampler.weightS _ s => has_axis_truncate s
  | PySampler.andS a b => has_axis_truncate a || has_axis_truncate b
  | PySampler.orS a b => has_axis_truncate a || has_axis_truncate b

/-! ## make_expand_grid_v2 coverage initialization -/

/-- Shallow embedding of numpy truth-value semantics for `not array`: an empty
array is falsy, a one-element array has the truth value of its element, and any
larger array raises `ValueError`. -/
def np_truthiness (m : List (List ℚ)) : Except String Bool :=
  let size := (m.map List.length).sum
  if size = 0 then .ok false
  else if size = 1 then .ok (m.flatten.any (fun v => decide (v ≠ 0)))
  else .error "The truth value of an array with more than one element is ambiguous."

/-- An all-zero coverage matrix, `np.zeros((r, c))`. -/
def np_zeros (r c : ℕ) : List (List ℚ) :=
  List.replicate r (List.replicate c 0)

/-- Embedding of the coverage-matrix initialization of
`SeismicCubeset.make_expand_grid_v2` (cubeset.py line 715):

    coverage = np.zeros((ilines_len, xlines_len)) if not coverage else coverage

With `coverage=None` the `not` is truthy and a zero matrix is created; with a
caller-supplied numpy array, `not coverage` evaluates numpy truthiness, which
raises for any array with more than one element. -/
def expand_v2_coverage (ilines_len xlines_len : ℕ) (coverage : Option (List (List ℚ))) :
    Except String (List (List ℚ)) :=
  match coverage with
  | none => .ok (np_zeros ilines_len xlines_len)
  | some m =>
    match np_truthiness m with
    | .error e => .error e
    | .ok t => .ok (if t then m else np_zeros ilines_len xlines_len)

/-- The paging of the crops produced by `make_expand_grid_v2`
(cubeset.py lines 745-746): same slicing generator as `make_grid`. -/
def expand_v2_chunks (bs : ℕ) (crops : List (String × ℤ × ℤ × ℤ)) :
    List (List (String × ℤ × ℤ × ℤ)) :=
  chunk bs crops

/-- The stored `crops_iters = - (-len(crops) // batch_size)`
(cubeset.py line 756). -/
def expand_v2_iters (bs : ℕ) (crops : List (String × ℤ × ℤ × ℤ)) : ℤ :=
  py_ceil_iters crops.length bs

deriving instance DecidableEq for Except

/-- A small concrete `make_grid` call used to exercise the theorems below:
volume (3,3,3), crop (1,1,1), ranges [0,1) on every axis, strides (1,1,1),
batch size 2.  Its grid is the single point ("c",0,0,0). -/
def grid_result_ex : GridResult :=
  match make_grid ⟨3, 3, 3⟩ "c" 1 1 1 0 1 0 1 0 1 (some (1, 1, 1)) 2 with
  | .ok r => r
  | .error _ => ⟨[], (0, 0, 0), (0, 0, 0), [], [], 0⟩

/-! ## Lemmas about the generator model -/

lemma gen_pull_n_all (l : List (List α)) : gen_pull_n l.length l = (l, []) := by
  induction l with
  | nil => rfl
  | cons p rest ih =>
    simp only [List.length_cons, gen_pull_n, gen_pull, ih]

lemma gen_pull_n_dead (n : ℕ) : gen_pull_n n ([] : List (List α)) = ([], []) := by
  cases n <;> rfl

/-! ## Lemmas about the sampler mixture -/

lemma mixture_components_orS (a b : PySampler) :
    mixture_components (PySampler.orS a b) = mixture_components a ++ mixture_components b := rfl

lemma mixture_components_weightS (w : ℚ) (s : PySampler) :
    mixture_components (PySampler.weightS w s) = [(w, s)] := rfl

lemma mixture_components_foldl (l : List ((String × PySampler) × ℚ)) (acc : PySampler) :
    mixture_components (l.foldl
      (fun acc s => PySampler.orS acc
        (PySampler.weightS s.2
          (PySampler.andS (PySampler.constantS s.1.1) (PySampler.applyS s.1.2)))) acc)
    = mixture_components acc ++ l.map (fun s =>
        (s.2, PySampler.andS (PySampler.constantS s.1.1) (PySampler.applyS s.1.2))) := by
  induction l generalizing acc with
  | nil => simp
  | cons x t ih =>
    rw [List.foldl_cons, ih, mixture_components_orS, mixture_components_weightS]
    simp

lemma sum_map_div (l : List ℚ) (c : ℚ) : (l.map (fun w => w / c)).sum = l.sum / c := by
  induction l with
  | nil => simp
  | cons x t ih => simp [ih, add_div]

/-! ## Lemmas about arange and the per-axis grid -/

lemma lt_ceil_iff (m st i : ℕ) (hst : 0 < st) : i < (m + st - 1) / st ↔ i * st < m := by
  rw [Nat.lt_iff_add_one_le, Nat.le_div_iff_mul_le hst, Nat.succ_mul]
  omega

lemma natCast_mul_toNat (i : ℕ) (st : ℤ) (hst : 0 ≤ st) :
    ((i * st.toNat : ℕ) : ℤ) = (i : ℤ) * st := by
  push_cast
  rw [Int.toNat_of_nonneg hst]

lemma lt_arange_len_iff {lo hi st : ℤ} (hst : 0 < st) (i : ℕ) :
    i < arange_len lo hi st ↔ lo + (i : ℤ) * st < hi := by
  have hstn : 0 < st.toNat := by omega
  unfold arange_len
  rw [lt_ceil_iff _ _ _ hstn]
  constructor
  · intro h
    have h' : ((i * st.toNat : ℕ) : ℤ) < ((hi - lo).toNat : ℤ) := by exact_mod_cast h
    rw [natCast_mul_toNat i st hst.le] at h'
    omega
  · intro h
    have h' : ((i * st.toNat : ℕ) : ℤ) < ((hi - lo).toNat : ℤ) := by
      rw [natCast_mul_toNat i st hst.le]
      omega
    exact_mod_cast h'

lemma mem_arange {lo hi st : ℤ} (hst : 0 < st) {a : ℤ} :
    a ∈ arange lo hi st ↔ ∃ i : ℕ, a = lo + (i : ℤ) * st ∧ a < hi := by
  unfold arange
  simp only [List.mem_map, List.mem_range]
  constructor
  · rintro ⟨i, hilt, rfl⟩
    exact ⟨i, rfl, (lt_arange_len_iff hst i).1 hilt⟩
  · rintro ⟨i, rfl, hlt⟩
    exact ⟨i, (lt_arange_len_iff hst i).2 hlt, rfl⟩

lemma arange_eq_nil_iff {lo hi st : ℤ} (hst : 0 < st) :
    arange lo hi st = [] ↔ hi ≤ lo := by
  unfold arange
  rw [List.map_eq_nil_iff, List.range_eq_nil]
  constructor
  · intro h
    by_contra hc
    have h0 : 0 < arange_len lo hi st := by
      rw [Nat.pos_iff_ne_zero]
      intro hz
      have := (lt_arange_len_iff hst 0).2 (by omega : lo + (0 : ℤ) * st < hi)
      omega
    omega
  · intro h
    by_contra hc
    have h0 : 0 < arange_len lo hi st := by omega
    have := (lt_arange_len_iff hst 0).1 h0
    omega

lemma length_filter_eq_iff {α : Type} (p : α → Bool) (l : List α) :
    (l.filter p).length = l.length ↔ ∀ a ∈ l, p a = true := by
  constructor
  · intro h
    exact List.filter_eq_self.mp (List.Sublist.eq_of_length (List.filter_sublist l) h)
  · intro h
    rw [List.filter_eq_self.mpr h]

lemma mem_make_axis_grid {lo hi st L k : ℤ} {a : ℤ} :
    a ∈ make_axis_grid lo hi st L k ↔
      (a ∈ arange lo hi st ∧ a + k < L) ∨
      (a = hi - k ∧ ∃ x ∈ arange lo hi st, L ≤ x + k) := by
  unfold make_axis_grid
  rw [(List.perm_insertionSort _ _).mem_iff]
  by_cases hlen : ((arange lo hi st).filter (fun x => decide (x + k < L))).length
      = (arange lo hi st).length
  · rw [if_pos hlen.symm]
    have hall := (length_filter_eq_iff _ _).1 hlen
    simp only [List.mem_filter, decide_eq_true_eq]
    constructor
    · exact fun h => Or.inl h
    · rintro (h | ⟨rfl, x, hx, hLx⟩)
      · exact h
      · have := hall x hx
        simp only [decide_eq_true_eq] at this
        omega
  · rw [if_neg (fun h => hlen h.symm)]
    have hex : ∃ x ∈ arange lo hi st, L ≤ x + k := by
      by_contra hc
      push_neg at hc
      exact hlen ((length_filter_eq_iff _ _).2 (fun x hx => by
        simp only [decide_eq_true_eq]
        have := hc x hx
        omega))
    simp only [List.mem_append, List.mem_filter, List.mem_singleton, decide_eq_true_eq]
    constructor
    · rintro (h | rfl)
      · exact Or.inl h
      · exact Or.inr ⟨rfl, hex⟩
    · rintro (h | ⟨rfl, _⟩)
      · exact Or.inl h
      · exact Or.inr rfl

/-! ## Lemmas about paging -/

lemma chunk_nil (bs : ℕ) (hbs : 0 < bs) : chunk bs ([] : List α) = [] := by
  unfold chunk
  have h : (List.length ([] : List α) + bs - 1) / bs = 0 := by
    apply Nat.div_eq_of_lt
    simp only [List.length_nil]
    omega
  rw [h]
  rfl

lemma chunk_cons (bs : ℕ) (hbs : 0 < bs) (l : List α) (hl : l ≠ []) :
    chunk bs l = l.take bs :: chunk bs (l.drop bs) := by
  have hlen : 0 < l.length := List.length_pos.2 hl
  have hn : (l.length + bs - 1) / bs = ((l.drop bs).length + bs - 1) / bs + 1 := by
    rw [List.length_drop]
    rcases Nat.le_total bs l.length with hle | hle
    · have h2 : l.length + bs - 1 = (l.length - bs + bs - 1) + bs := by omega
      rw [h2, Nat.add_div_right _ hbs]
    · have h1 : l.length - bs + bs - 1 < bs := by omega
      have h2 : l.length + bs - 1 = (l.length - 1) + bs := by omega
      rw [Nat.div_eq_of_lt h1, h2, Nat.add_div_right _ hbs, Nat.div_eq_of_lt (by omega)]
  unfold chunk
  rw [hn, List.range_succ_eq_map, List.map_cons, List.map_map]
  congr 1
  · rw [Nat.zero_mul, List.drop_zero]
  · apply List.map_congr_left
    intro i _
    simp only [Function.comp_apply, List.drop_drop]
    rw [Nat.succ_mul, Nat.add_comm (i * bs) bs]

lemma chunk_flatten (bs : ℕ) (hbs : 0 < bs) (l : List α) :
    (chunk bs l).flatten = l := by
  by_cases hl : l = []
  · subst hl
    rw [chunk_nil bs hbs]
    rfl
  · rw [chunk_cons bs hbs l hl, List.flatten_cons,
      chunk_flatten bs hbs (l.drop bs), List.take_append_drop]
termination_by l.length
decreasing_by
  have : 0 < l.length := List.length_pos.2 hl
  rw [List.length_drop]
  omega

lemma chunk_length (bs : ℕ) (l : List α) :
    (chunk bs l).length = (l.length + bs - 1) / bs := by
  unfold chunk
  rw [List.length_map, List.length_range]

lemma py_ceil_iters_eq (n bs : ℕ) (hbs : 0 < bs) :
    py_ceil_iters n bs = (((n + bs - 1) / bs : ℕ) : ℤ) := by
  unfold py_ceil_iters
  have hbz : (bs : ℤ) ≠ 0 := by omega
  rw [Int.fdiv_eq_ediv _ (by omega : (0:ℤ) ≤ bs)]
  obtain ⟨q, r, hqr, hrlt⟩ : ∃ q r : ℕ, n = bs * q + r ∧ r < bs :=
    ⟨n / bs, n % bs, (Nat.div_add_mod n bs).symm, Nat.mod_lt _ hbs⟩
  subst hqr
  rcases Nat.eq_zero_or_pos r with hr | hr
  · subst hr
    have h1 : (-(((bs * q + 0 : ℕ) : ℤ))) = (bs : ℤ) * (-(q : ℤ)) := by push_cast; ring
    rw [h1, Int.mul_ediv_cancel_left _ hbz]
    have h2 : (bs * q + 0 + bs - 1 : ℕ) = bs * q + (bs - 1) := by omega
    rw [h2, Nat.mul_add_div hbs, Nat.div_eq_of_lt (by omega)]
    push_cast
    ring
  · have h1 : (-(((bs * q + r : ℕ) : ℤ))) = ((bs - r : ℕ) : ℤ) + (bs : ℤ) * (-(q : ℤ) - 1) := by
      push_cast
      have : ((bs : ℤ)) - r + bs * (-(q:ℤ) - 1) = -(bs * q + r) := by ring
      omega
    have hz : ((bs - r : ℕ) : ℤ) / (bs : ℤ) = 0 :=
      Int.ediv_eq_zero_of_lt (by omega) (by omega)
    rw [h1, Int.add_mul_ediv_left _ _ hbz, hz]
    have h2 : (bs * q + r + bs - 1 : ℕ) = bs * (q + 1) + (r - 1) := by
      rw [Nat.mul_succ]
      omega
    rw [h2, Nat.mul_add_div hbs, Nat.div_eq_of_lt (by omega)]
    push_cast
    ring

/-! ## Lemmas about the grid product and make_grid -/

lemma mem_grid_product {cn : String} {ils xls hhs : List ℤ} {q : String × ℤ × ℤ × ℤ} :
    q ∈ grid_product cn ils xls hhs ↔
      ∃ il ∈ ils, ∃ xl ∈ xls, ∃ hh ∈ hhs, q = (cn, il, xl, hh) := by
  unfold grid_product
  simp only [List.mem_flatMap, List.mem_map]
  constructor
  · rintro ⟨il, hil, xl, hxl, hh, hhh, rfl⟩
    exact ⟨il, hil, xl, hxl, hh, hhh, rfl⟩
  · rintro ⟨il, hil, xl, hxl, hh, hhh, rfl⟩
    exact ⟨il, hil, xl, hxl, hh, hhh, rfl⟩

lemma grid_product_cons {cn : String} {il : ℤ} {ils xls hhs : List ℤ} :
    grid_product cn (il :: ils) xls hhs =
      (xls.flatMap fun xl => hhs.map fun hh => (cn, il, xl, hh)) ++ grid_product cn ils xls hhs := by
  unfold grid_product
  rw [List.flatMap_cons]

lemma grid_product_eq_nil_iff {cn : String} {ils xls hhs : List ℤ} :
    grid_product cn ils xls hhs = [] ↔ ils = [] ∨ xls = [] ∨ hhs = [] := by
  rw [List.eq_nil_iff_forall_not_mem]
  constructor
  · intro h
    by_contra hc
    push_neg at hc
    obtain ⟨h1, h2, h3⟩ := hc
    obtain ⟨il, hil⟩ := List.exists_mem_of_ne_nil _ h1
    obtain ⟨xl, hxl⟩ := List.exists_mem_of_ne_nil _ h2
    obtain ⟨hh, hhh⟩ := List.exists_mem_of_ne_nil _ h3
    exact h _ (mem_grid_product.2 ⟨il, hil, xl, hxl, hh, hhh, rfl⟩)
  · intro h q hq
    obtain ⟨il, hil, xl, hxl, hh, hhh, _⟩ := mem_grid_product.1 hq
    rcases h with h | h | h <;> subst h <;> simp_all

lemma make_axis_grid_eq_nil_iff {lo hi st L k : ℤ} (hst : 0 < st) :
    make_axis_grid lo hi st L k = [] ↔ hi ≤ lo := by
  constructor
  · intro h
    by_contra hc
    push_neg at hc
    have hmem : lo ∈ arange lo hi st := (mem_arange hst).2 ⟨0, by omega, by omega⟩
    have : lo ∈ make_axis_grid lo hi st L k ∨ (hi - k) ∈ make_axis_grid lo hi st L k := by
      by_cases hf : lo + k < L
      · exact Or.inl (mem_make_axis_grid.2 (Or.inl ⟨hmem, hf⟩))
      · exact Or.inr (mem_make_axis_grid.2 (Or.inr ⟨rfl, lo, hmem, by omega⟩))
    rcases this with hm | hm <;> simp [h] at hm
  · intro h
    have hnil : arange lo hi st = [] := (arange_eq_nil_iff hst).2 h
    unfold make_axis_grid
    rw [hnil]
    simp

/-- Every anchor of the per-axis grid is at least `lo`, provided the flush anchor
`hi - crop` is (i.e. provided `crop ≤ hi - lo`), and every anchor keeps its tile
inside the volume bound `L`, provided `hi < L`. -/
lemma axis_bounds {lo hi st L k : ℤ} (hst : 0 < st) (hk : k ≤ hi - lo) (hhL : hi < L)
    {a : ℤ} (ha : a ∈ make_axis_grid lo hi st L k) : lo ≤ a ∧ a + k < L := by
  rcases mem_make_axis_grid.1 ha with ⟨hmem, hfit⟩ | ⟨rfl, x, hx, hLx⟩
  · obtain ⟨i, rfl, _⟩ := (mem_arange hst).1 hmem
    have hnn : (0 : ℤ) ≤ (i : ℤ) * st := mul_nonneg (by positivity) hst.le
    exact ⟨by omega, hfit⟩
  · exact ⟨by omega, by omega⟩

/-- Coverage of the per-axis grid: with a positive stride not exceeding the crop
extent and a valid upper bound (`hi < L`), every coordinate of `[lo, hi)` lies in
the footprint of some anchor. -/
lemma axis_cover {lo hi st L k : ℤ} (hst : 0 < st) (hsk : st ≤ k) (hhL : hi < L)
    {c : ℤ} (hlc : lo ≤ c) (hch : c < hi) :
    ∃ a ∈ make_axis_grid lo hi st L k, a ≤ c ∧ c < a + k := by
  have hstn : 0 < st.toNat := by omega
  obtain ⟨i, ha_le, hc_lt⟩ :
      ∃ i : ℕ, lo + (i : ℤ) * st ≤ c ∧ c < lo + (i : ℤ) * st + st := by
    refine ⟨(c - lo).toNat / st.toNat, ?_, ?_⟩
    · have h1 : ((c - lo).toNat / st.toNat * st.toNat : ℕ) ≤ (c - lo).toNat :=
        Nat.div_mul_le_self _ _
      have h2 : (((c - lo).toNat / st.toNat * st.toNat : ℕ) : ℤ) ≤ ((c - lo).toNat : ℤ) := by
        exact_mod_cast h1
      rw [natCast_mul_toNat _ st hst.le] at h2
      omega
    · have h1 : (c - lo).toNat < ((c - lo).toNat / st.toNat + 1) * st.toNat := by
        have hdm := Nat.div_add_mod ((c - lo).toNat) st.toNat
        have hml := Nat.mod_lt ((c - lo).toNat) hstn
        have hcm : (c - lo).toNat / st.toNat * st.toNat
            = st.toNat * ((c - lo).toNat / st.toNat) := Nat.mul_comm _ _
        rw [Nat.succ_mul]
        omega
      have h2 : ((c - lo).toNat : ℤ) < ((((c - lo).toNat / st.toNat + 1) * st.toNat : ℕ) : ℤ) := by
        exact_mod_cast h1
      rw [natCast_mul_toNat _ st hst.le, Nat.cast_add_one] at h2
      have h3 : ((((c - lo).toNat / st.toNat : ℕ) : ℤ) + 1) * st
          = (((c - lo).toNat / st.toNat : ℕ) : ℤ) * st + st := by ring
      rw [h3] at h2
      omega
  have ha_mem : lo + (i : ℤ) * st ∈ arange lo hi st :=
    (mem_arange hst).2 ⟨i, rfl, by omega⟩
  by_cases hfits : lo + (i : ℤ) * st + k < L
  · exact ⟨lo + (i : ℤ) * st, mem_make_axis_grid.2 (Or.inl ⟨ha_mem, hfits⟩),
      by omega, by omega⟩
  · refine ⟨hi - k, mem_make_axis_grid.2
      (Or.inr ⟨rfl, lo + (i : ℤ) * st, ha_mem, by omega⟩), by omega, by omega⟩

/-! ## Extraction lemma for successful make_grid calls -/

lemma make_grid_ok {geom : Geom} {cn : String} {k0 k1 k2 : ℤ}
    {il_lo il_hi xl_lo xl_hi h_lo h_hi : ℤ} {st : Option (ℤ × ℤ × ℤ)} {bs : ℕ}
    {r : GridResult}
    (hok : make_grid geom cn k0 k1 k2 il_lo il_hi xl_lo xl_hi h_lo h_hi st bs = .ok r) :
    (0 ≤ il_lo ∧ 0 ≤ xl_lo ∧ 0 ≤ h_lo) ∧
    (il_hi < geom.ilines_len ∧ xl_hi < geom.xlines_len ∧ h_hi < geom.depth) ∧
    r.grid = grid_product cn
        (make_axis_grid il_lo il_hi (st.getD (k0, k1, k2)).1 geom.ilines_len k0)
        (make_axis_grid xl_lo xl_hi (st.getD (k0, k1, k2)).2.1 geom.xlines_len k1)
        (make_axis_grid h_lo h_hi (st.getD (k0, k1, k2)).2.2 geom.depth k2) ∧
    r.grid_batches = chunk bs r.grid ∧
    r.grid_iters = py_ceil_iters r.grid.length bs ∧
    r.grid ≠ [] ∧
    0 < bs := by
  simp only [make_grid] at hok
  by_cases h1 : il_lo < 0 ∨ xl_lo < 0 ∨ h_lo < 0
  · rw [if_pos h1] at hok
    exact absurd hok (by simp)
  rw [if_neg h1] at hok
  by_cases h2 : geom.ilines_len ≤ il_hi ∨ geom.xlines_len ≤ xl_hi ∨ geom.depth ≤ h_hi
  · rw [if_pos h2] at hok
    exact absurd hok (by simp)
  rw [if_neg h2] at hok
  by_cases h3 : bs = 0
  · rw [if_pos h3] at hok
    exact absurd hok (by simp)
  rw [if_neg h3] at hok
  push_neg at h1 h2
  refine ⟨⟨h1.1, h1.2.1, h1.2.2⟩, ⟨h2.1, h2.2.1, h2.2.2⟩, ?_⟩
  revert hok
  cases hg : grid_product cn
      (make_axis_grid il_lo il_hi (st.getD (k0, k1, k2)).1 geom.ilines_len k0)
      (make_axis_grid xl_lo xl_hi (st.getD (k0, k1, k2)).2.1 geom.xlines_len k1)
      (make_axis_grid h_lo h_hi (st.getD (k0, k1, k2)).2.2 geom.depth k2) with
  | nil =>
    intro hok
    exact absurd hok (by simp)
  | cons p ps =>
    intro hok
    have hr := (Except.ok.inj hok).symm
    subst hr
    exact ⟨rfl, rfl, rfl, by simp, Nat.pos_of_ne_zero h3⟩

/-! ## Claim C1 -/

/-- Claim C1 as stated is false on the code: `make_grid` with the valid ranges
`[0,5)` on every axis of a (100,100,100) volume, crop (3,3,3) and strides
(2,2,2) emits the anchor (4,4,4), whose tile ends at 4 + 3 = 7 > 5 = range.high.
The per-axis filter bounds tiles by the volume extent, not by range.high. -/
theorem C1_claim_counterexample :
    grid_contains (make_grid ⟨100, 100, 100⟩ "c" 3 3 3 0 5 0 5 0 5 (some (2, 2, 2)) 16)
      ("c", 4, 4, 4) = true ∧ ¬((4 : ℤ) + 3 ≤ 5) := by
  constructor
  · decide
  · decide

/-- Claim C1 (amended): for every successful `make_grid` call with positive
strides and crop_shape fitting in each range (`crop ≤ high - low`), every
emitted anchor `a` satisfies `a ≥ range.low` and `a + crop_shape < volume
extent` on the corresponding axis; the tile may extend past `range.high` but
never past the volume bound. -/
theorem C1_amended_anchor_bounds
    (geom : Geom) (cn : String) (k0 k1 k2 il_lo il_hi xl_lo xl_hi h_lo h_hi s0 s1 s2 : ℤ)
    (bs : ℕ) (r : GridResult)
    (hs0 : 0 < s0) (hs1 : 0 < s1) (hs2 : 0 < s2)
    (hk0 : k0 ≤ il_hi - il_lo) (hk1 : k1 ≤ xl_hi - xl_lo) (hk2 : k2 ≤ h_hi - h_lo)
    (hok : make_grid geom cn k0 k1 k2 il_lo il_hi xl_lo xl_hi h_lo h_hi
      (some (s0, s1, s2)) bs = .ok r)
    (q : String × ℤ × ℤ × ℤ) (hq : q ∈ r.grid) :
    q.1 = cn ∧
    (il_lo ≤ q.2.1 ∧ q.2.1 + k0 < geom.ilines_len) ∧
    (xl_lo ≤ q.2.2.1 ∧ q.2.2.1 + k1 < geom.xlines_len) ∧
    (h_lo ≤ q.2.2.2 ∧ q.2.2.2 + k2 < geom.depth) := by
  obtain ⟨hlo, hhi, hgrid, hbatch, hiters, hne, hbspos⟩ := make_grid_ok hok
  rw [hgrid] at hq
  obtain ⟨il, hil, xl, hxl, hh, hhh, rfl⟩ := mem_grid_product.1 hq
  exact ⟨rfl, axis_bounds hs0 hk0 hhi.1 hil, axis_bounds hs1 hk1 hhi.2.1 hxl,
    axis_bounds hs2 hk2 hhi.2.2 hhh⟩

/-- Witness for the amended C1 theorem at a concrete input. -/
theorem C1_amended_anchor_bounds_witness :
    ("c", (0 : ℤ), (0 : ℤ), (0 : ℤ)).1 = "c" ∧
    ((0 : ℤ) ≤ ("c", (0 : ℤ), (0 : ℤ), (0 : ℤ)).2.1 ∧
      ("c", (0 : ℤ), (0 : ℤ), (0 : ℤ)).2.1 + 1 < (Geom.mk 3 3 3).ilines_len) ∧
    ((0 : ℤ) ≤ ("c", (0 : ℤ), (0 : ℤ), (0 : ℤ)).2.2.1 ∧
      ("c", (0 : ℤ), (0 : ℤ), (0 : ℤ)).2.2.1 + 1 < (Geom.mk 3 3 3).xlines_len) ∧
    ((0 : ℤ) ≤ ("c", (0 : ℤ), (0 : ℤ), (0 : ℤ)).2.2.2 ∧
      ("c", (0 : ℤ), (0 : ℤ), (0 : ℤ)).2.2.2 + 1 < (Geom.mk 3 3 3).depth) :=
  C1_amended_anchor_bounds ⟨3, 3, 3⟩ "c" 1 1 1 0 1 0 1 0 1 1 1 1 2 grid_result_ex
    (by decide) (by decide) (by decide) (by decide) (by decide) (by decide)
    (by decide) ("c", 0, 0, 0) (by decide)

/-! ## Claim C3 -/

/-- Claim C3 as stated is false on the code: with range [0,5), stride 2,
crop 3 and volume extent 100, the code keeps every natural anchor whose tile
fits in the VOLUME (`a + crop < 100`), yielding [0, 2, 4], while the rule the
spec states (filter by `a + crop < range.high`, then close the gap with
`range.high - crop`) yields [0, 2].  The code's anchor 4 can be produced by no
reading of the spec rule: it passes neither the spec filter (4 + 3 is not < 5)
nor equals the flush anchor 5 - 3. -/
theorem C3_claim_counterexample :
    make_axis_grid 0 5 2 100 3 = [0, 2, 4] ∧
    make_axis_grid_spec 0 5 2 3 = [0, 2] ∧
    make_axis_grid 0 5 2 100 3 ≠ make_axis_grid_spec 0 5 2 3 ∧
    (4 : ℤ) ∈ make_axis_grid 0 5 2 100 3 ∧
    ¬((4 : ℤ) + 3 < 5) ∧ (4 : ℤ) ≠ 5 - 3 := by
  refine ⟨by decide, by decide, by decide, by decide, by decide, by decide⟩

/-- Claim C3 (amended): the per-axis anchor set consists of exactly the natural
anchors `a = low + i*stride` below `range.high` whose tile fits inside the
VOLUME (`a + crop_shape < volume_length`), plus — exactly when at least one
natural anchor fails that volume-bound filter — one extra anchor
`range.high - crop_shape`; the full grid is the cartesian product of the three
per-axis sets, axis-0-major (all points of the first axis-0 anchor precede all
points of later ones). -/
theorem C3_amended_axis_rule_and_product
    (lo hi st L k : ℤ) (hst : 0 < st) (a : ℤ)
    (cn : String) (ils xls hhs : List ℤ) (q : String × ℤ × ℤ × ℤ) (il : ℤ) :
    (a ∈ make_axis_grid lo hi st L k ↔
      ((∃ i : ℕ, a = lo + (i : ℤ) * st ∧ a < hi) ∧ a + k < L) ∨
      (a = hi - k ∧ ∃ x, (∃ i : ℕ, x = lo + (i : ℤ) * st ∧ x < hi) ∧ L ≤ x + k)) ∧
    (q ∈ grid_product cn ils xls hhs ↔
      ∃ i0 ∈ ils, ∃ i1 ∈ xls, ∃ i2 ∈ hhs, q = (cn, i0, i1, i2)) ∧
    (grid_product cn (il :: ils) xls hhs =
      (xls.flatMap fun xl => hhs.map fun hh => (cn, il, xl, hh))
        ++ grid_product cn ils xls hhs) := by
  refine ⟨?_, mem_grid_product, grid_product_cons⟩
  rw [mem_make_axis_grid]
  simp only [mem_arange hst]

/-- Witness for the amended C3 theorem at a concrete input. -/
theorem C3_amended_axis_rule_and_product_witness :
    ((4 : ℤ) ∈ make_axis_grid 0 5 2 100 3 ↔
      ((∃ i : ℕ, (4 : ℤ) = 0 + (i : ℤ) * 2 ∧ (4 : ℤ) < 5) ∧ (4 : ℤ) + 3 < 100) ∨
      ((4 : ℤ) = 5 - 3 ∧ ∃ x, (∃ i : ℕ, x = 0 + (i : ℤ) * 2 ∧ x < 5) ∧ (100 : ℤ) ≤ x + 3)) ∧
    (("c", (0 : ℤ), (0 : ℤ), (0 : ℤ)) ∈ grid_product "c" [0] [0] [0] ↔
      ∃ i0 ∈ ([0] : List ℤ), ∃ i1 ∈ ([0] : List ℤ), ∃ i2 ∈ ([0] : List ℤ),
        ("c", (0 : ℤ), (0 : ℤ), (0 : ℤ)) = ("c", i0, i1, i2)) ∧
    (grid_product "c" (1 :: [0]) [0] [0] =
      (([0] : List ℤ).flatMap fun xl => ([0] : List ℤ).map fun hh => ("c", (1 : ℤ), xl, hh))
        ++ grid_product "c" [0] [0] [0]) :=
  C3_amended_axis_rule_and_product 0 5 2 100 3 (by decide) 4 "c" [0] [0] [0]
    ("c", 0, 0, 0) 1

/-! ## Claim C9 -/

set_option maxRecDepth 4000 in
/-- Claim C9 as stated is false on the code: the example scenario uses
`range.high` equal to the volume extent on axes 1 and 2 (100 = xlines_len,
50 = depth), and `make_grid` checks `range.high >= extent` strictly, so the
call raises before producing any anchors instead of producing 250. -/
theorem C9_claim_counterexample :
    make_grid ⟨100, 100, 50⟩ "c" 1 10 10 0 50 0 100 0 50 (some (10, 10, 10)) 16
      = .error "Ranges must contain in the cube." := by
  decide

set_option maxRecDepth 4000 in
/-- Claim C9 (amended): enlarging the volume to (101,101,51) so that the
example ranges satisfy the strict precondition, `make_grid` with crop (1,10,10),
ranges [0,50), [0,100), [0,50) and strides (10,10,10) produces exactly
5*10*5 = 250 anchors (the per-axis natural grids have 5, 10, 5 anchors), and
edge correction appends at most one extra anchor per axis. -/
theorem C9_amended_example_scenario :
    (arange 0 50 10).length = 5 ∧ (arange 0 100 10).length = 10 ∧
    (arange 0 50 10).length = 5 ∧
    grid_size (make_grid ⟨101, 101, 51⟩ "c" 1 10 10 0 50 0 100 0 50
      (some (10, 10, 10)) 16) = 250 ∧
    is_error (make_grid ⟨101, 101, 51⟩ "c" 1 10 10 0 50 0 100 0 50
      (some (10, 10, 10)) 16) = false ∧
    (make_axis_grid 0 50 10 101 1).length ≤ (arange 0 50 10).length + 1 ∧
    (make_axis_grid 0 100 10 101 10).length ≤ (arange 0 100 10).length + 1 ∧
    (make_axis_grid 0 50 10 51 10).length ≤ (arange 0 50 10).length + 1 := by
  refine ⟨by decide, by decide, by decide, by decide, by decide, by decide, by decide, by decide⟩

/-! ## Claim C2 -/

/-- Claim C2 (confirmed): for every successful `make_grid` call with positive
per-axis strides not larger than the corresponding crop extents, every integer
coordinate triple inside the requested ranges lies within the footprint of at
least one emitted tile. -/
theorem C2_grid_full_coverage
    (geom : Geom) (cn : String) (k0 k1 k2 il_lo il_hi xl_lo xl_hi h_lo h_hi s0 s1 s2 : ℤ)
    (bs : ℕ) (r : GridResult)
    (hs0 : 0 < s0) (hs1 : 0 < s1) (hs2 : 0 < s2)
    (hk0 : s0 ≤ k0) (hk1 : s1 ≤ k1) (hk2 : s2 ≤ k2)
    (hok : make_grid geom cn k0 k1 k2 il_lo il_hi xl_lo xl_hi h_lo h_hi
      (some (s0, s1, s2)) bs = .ok r)
    (c0 c1 c2 : ℤ)
    (hc0 : il_lo ≤ c0 ∧ c0 < il_hi) (hc1 : xl_lo ≤ c1 ∧ c1 < xl_hi)
    (hc2 : h_lo ≤ c2 ∧ c2 < h_hi) :
    ∃ q ∈ r.grid, q.1 = cn ∧
      (q.2.1 ≤ c0 ∧ c0 < q.2.1 + k0) ∧
      (q.2.2.1 ≤ c1 ∧ c1 < q.2.2.1 + k1) ∧
      (q.2.2.2 ≤ c2 ∧ c2 < q.2.2.2 + k2) := by
  obtain ⟨hlo, hhi, hgrid, hbatch, hiters, hne, hbspos⟩ := make_grid_ok hok
  obtain ⟨a0, ha0, ha0b⟩ := axis_cover hs0 hk0 hhi.1 hc0.1 hc0.2
  obtain ⟨a1, ha1, ha1b⟩ := axis_cover hs1 hk1 hhi.2.1 hc1.1 hc1.2
  obtain ⟨a2, ha2, ha2b⟩ := axis_cover hs2 hk2 hhi.2.2 hc2.1 hc2.2
  refine ⟨(cn, a0, a1, a2), ?_, rfl, ha0b, ha1b, ha2b⟩
  rw [hgrid]
  exact mem_grid_product.2 ⟨a0, ha0, a1, ha1, a2, ha2, rfl⟩

/-- Witness for the C2 coverage theorem at a concrete input. -/
theorem C2_grid_full_coverage_witness :
    ∃ q ∈ grid_result_ex.grid, q.1 = "c" ∧
      (q.2.1 ≤ 0 ∧ (0 : ℤ) < q.2.1 + 1) ∧
      (q.2.2.1 ≤ 0 ∧ (0 : ℤ) < q.2.2.1 + 1) ∧
      (q.2.2.2 ≤ 0 ∧ (0 : ℤ) < q.2.2.2 + 1) :=
  C2_grid_full_coverage ⟨3, 3, 3⟩ "c" 1 1 1 0 1 0 1 0 1 1 1 1 2 grid_result_ex
    (by decide) (by decide) (by decide) (by decide) (by decide) (by decide)
    (by decide) 0 0 0 (by decide) (by decide) (by decide)

/-! ## Claim C4 -/

/-- Claim C4 as stated is false on the code: with volume (10,10,10), crop
(1,1,1) and the degenerate iline range [0,0) (low 0 is nonnegative, all highs
0,1,1 are below the extents, so the claim's precondition is satisfied),
`make_grid` still raises — the empty grid makes the offset computation
`min(grid[:, 1])` fail — instead of succeeding as the claimed "if and only if"
requires. -/
theorem C4_claim_counterexample :
    ¬((0 : ℤ) < 0) ∧ ¬((10 : ℤ) ≤ 0) ∧ ¬((10 : ℤ) ≤ 1) ∧
    is_error (make_grid ⟨10, 10, 10⟩ "c" 1 1 1 0 0 0 1 0 1 (some (1, 1, 1)) 16) = true := by
  refine ⟨by decide, by decide, by decide, by decide⟩

/-- Claim C4 (amended): with positive strides, `make_grid` raises an error
(before storing any generator state — on the error path nothing is stored) if
and only if some range.low is negative, some range.high reaches the volume
extent, some range is degenerate (high ≤ low, which yields an empty grid and
makes the offset computation fail), or the batch size is zero (the generator
expression at line 429 eagerly evaluates `range(0, len(grid), 0)`, which
raises); a call with valid, nonempty ranges and a positive batch size never
fails. -/
theorem C4_amended_error_iff
    (geom : Geom) (cn : String)
    (k0 k1 k2 il_lo il_hi xl_lo xl_hi h_lo h_hi s0 s1 s2 : ℤ) (bs : ℕ)
    (hs0 : 0 < s0) (hs1 : 0 < s1) (hs2 : 0 < s2) :
    is_error (make_grid geom cn k0 k1 k2 il_lo il_hi xl_lo xl_hi h_lo h_hi
        (some (s0, s1, s2)) bs) = true ↔
      ((il_lo < 0 ∨ xl_lo < 0 ∨ h_lo < 0) ∨
       (geom.ilines_len ≤ il_hi ∨ geom.xlines_len ≤ xl_hi ∨ geom.depth ≤ h_hi) ∨
       (il_hi ≤ il_lo ∨ xl_hi ≤ xl_lo ∨ h_hi ≤ h_lo) ∨
       bs = 0) := by
  simp only [make_grid, Option.getD_some]
  by_cases h1 : il_lo < 0 ∨ xl_lo < 0 ∨ h_lo < 0
  · rw [if_pos h1]
    simp only [is_error, true_iff]
    tauto
  rw [if_neg h1]
  by_cases h2 : geom.ilines_len ≤ il_hi ∨ geom.xlines_len ≤ xl_hi ∨ geom.depth ≤ h_hi
  · rw [if_pos h2]
    simp only [is_error, true_iff]
    tauto
  rw [if_neg h2]
  by_cases hbs : bs = 0
  · rw [if_pos hbs]
    simp only [is_error, true_iff]
    tauto
  rw [if_neg hbs]
  rcases hg : grid_product cn (make_axis_grid il_lo il_hi s0 geom.ilines_len k0)
      (make_axis_grid xl_lo xl_hi s1 geom.xlines_len k1)
      (make_axis_grid h_lo h_hi s2 geom.depth k2) with _ | ⟨p, ps⟩
  · simp only [is_error, true_iff]
    rcases grid_product_eq_nil_iff.1 hg with h | h | h
    · have := (make_axis_grid_eq_nil_iff hs0).1 h
      tauto
    · have := (make_axis_grid_eq_nil_iff hs1).1 h
      tauto
    · have := (make_axis_grid_eq_nil_iff hs2).1 h
      tauto
  · simp only [is_error, Bool.false_eq_true, false_iff]
    push_neg at h1 h2
    rintro ((h | h | h) | (h | h | h) | (h | h | h) | h)
    · omega
    · omega
    · omega
    · have := h2.1
      omega
    · have := h2.2.1
      omega
    · have := h2.2.2
      omega
    · have : grid_product cn (make_axis_grid il_lo il_hi s0 geom.ilines_len k0)
          (make_axis_grid xl_lo xl_hi s1 geom.xlines_len k1)
          (make_axis_grid h_lo h_hi s2 geom.depth k2) = [] :=
        grid_product_eq_nil_iff.2 (Or.inl ((make_axis_grid_eq_nil_iff hs0).2 h))
      rw [hg] at this
      exact absurd this (by simp)
    · have : grid_product cn (make_axis_grid il_lo il_hi s0 geom.ilines_len k0)
          (make_axis_grid xl_lo xl_hi s1 geom.xlines_len k1)
          (make_axis_grid h_lo h_hi s2 geom.depth k2) = [] :=
        grid_product_eq_nil_iff.2 (Or.inr (Or.inl ((make_axis_grid_eq_nil_iff hs1).2 h)))
      rw [hg] at this
      exact absurd this (by simp)
    · have : grid_product cn (make_axis_grid il_lo il_hi s0 geom.ilines_len k0)
          (make_axis_grid xl_lo xl_hi s1 geom.xlines_len k1)
          (make_axis_grid h_lo h_hi s2 geom.depth k2) = [] :=
        grid_product_eq_nil_iff.2 (Or.inr (Or.inr ((make_axis_grid_eq_nil_iff hs2).2 h)))
      rw [hg] at this
      exact absurd this (by simp)
    · exact hbs h

/-- Witness for the amended C4 theorem at a concrete input. -/
theorem C4_amended_error_iff_witness :
    is_error (make_grid ⟨10, 10, 10⟩ "c" 1 1 1 0 0 0 1 0 1 (some (1, 1, 1)) 16) = true ↔
      (((0 : ℤ) < 0 ∨ (0 : ℤ) < 0 ∨ (0 : ℤ) < 0) ∨
       ((Geom.mk 10 10 10).ilines_len ≤ 0 ∨ (Geom.mk 10 10 10).xlines_len ≤ 1 ∨
         (Geom.mk 10 10 10).depth ≤ 1) ∨
       ((0 : ℤ) ≤ 0 ∨ (1 : ℤ) ≤ 0 ∨ (1 : ℤ) ≤ 0) ∨
       (16 : ℕ) = 0) :=
  C4_amended_error_iff ⟨10, 10, 10⟩ "c" 1 1 1 0 0 0 1 0 1 1 1 1 16
    (by decide) (by decide) (by decide)

/-! ## Claim C5 -/

/-- Claim C5 (confirmed): for every grid produced by `make_grid` and every crop
list paged the way `make_expand_grid_v2` pages its crops, concatenating all
pages yields exactly the full row list in order, and the stored iteration count
equals ceil(total / batch_size) (stated with natural ceiling division), which
is also the number of pages. -/
theorem C5_pages_roundtrip
    (geom : Geom) (cn : String) (k0 k1 k2 il_lo il_hi xl_lo xl_hi h_lo h_hi : ℤ)
    (st : Option (ℤ × ℤ × ℤ)) (bs : ℕ) (r : GridResult)
    (hbs : 0 < bs)
    (hok : make_grid geom cn k0 k1 k2 il_lo il_hi xl_lo xl_hi h_lo h_hi st bs = .ok r)
    (crops : List (String × ℤ × ℤ × ℤ)) :
    r.grid_batches.flatten = r.grid ∧
    r.grid_iters = (((r.grid.length + bs - 1) / bs : ℕ) : ℤ) ∧
    r.grid_batches.length = (r.grid.length + bs - 1) / bs ∧
    (expand_v2_chunks bs crops).flatten = crops ∧
    expand_v2_iters bs crops = (((crops.length + bs - 1) / bs : ℕ) : ℤ) ∧
    (expand_v2_chunks bs crops).length = (crops.length + bs - 1) / bs := by
  obtain ⟨hval1, hval2, hgrid, hbatch, hiters, hne, hbspos⟩ := make_grid_ok hok
  rw [hbatch, hiters]
  exact ⟨chunk_flatten bs hbs _, py_ceil_iters_eq _ _ hbs, chunk_length bs _,
    chunk_flatten bs hbs _, py_ceil_iters_eq _ _ hbs, chunk_length bs _⟩

/-- Witness for the C5 round-trip theorem at a concrete input. -/
theorem C5_pages_roundtrip_witness :
    grid_result_ex.grid_batches.flatten = grid_result_ex.grid ∧
    grid_result_ex.grid_iters = (((grid_result_ex.grid.length + 2 - 1) / 2 : ℕ) : ℤ) ∧
    grid_result_ex.grid_batches.length = (grid_result_ex.grid.length + 2 - 1) / 2 ∧
    (expand_v2_chunks 2 [("d", 1, 2, 3)]).flatten = [("d", 1, 2, 3)] ∧
    expand_v2_iters 2 [("d", 1, 2, 3)] = ((([("d", (1 : ℤ), (2 : ℤ), (3 : ℤ))].length + 2 - 1) / 2 : ℕ) : ℤ) ∧
    (expand_v2_chunks 2 [("d", 1, 2, 3)]).length = ([("d", (1 : ℤ), (2 : ℤ), (3 : ℤ))].length + 2 - 1) / 2 :=
  C5_pages_roundtrip ⟨3, 3, 3⟩ "c" 1 1 1 0 1 0 1 0 1 (some (1, 1, 1)) 2 grid_result_ex
    (by decide) (by decide) [("d", 1, 2, 3)]

/-! ## Claim C8 -/

/-- Claim C8 (confirmed): a generator built by `make_grid` (or the
expand-grid-style chunking) yields exactly its pages when pulled
`grid_iters` times (which equals the number of pages), after which it is
exhausted; once exhausted, every further pull raises `StopIteration` and
returns no data, and the generator stays dead no matter how many further pulls
are made — only building a fresh grid gives a usable generator again. -/
theorem C8_generator_dead_after_exhaustion
    (geom : Geom) (cn : String) (k0 k1 k2 il_lo il_hi xl_lo xl_hi h_lo h_hi : ℤ)
    (st : Option (ℤ × ℤ × ℤ)) (bs : ℕ) (r : GridResult)
    (hbs : 0 < bs)
    (hok : make_grid geom cn k0 k1 k2 il_lo il_hi xl_lo xl_hi h_lo h_hi st bs = .ok r)
    (m : ℕ) (crops : List (String × ℤ × ℤ × ℤ)) :
    gen_pull_n r.grid_batches.length r.grid_batches = (r.grid_batches, []) ∧
    r.grid_iters = (r.grid_batches.length : ℤ) ∧
    gen_pull ([] : List (List (String × ℤ × ℤ × ℤ))) = .error "StopIteration" ∧
    gen_pull_n m ([] : List (List (String × ℤ × ℤ × ℤ))) = ([], []) ∧
    gen_pull_n (expand_v2_chunks bs crops).length (expand_v2_chunks bs crops)
      = (expand_v2_chunks bs crops, []) := by
  obtain ⟨hval1, hval2, hgrid, hbatch, hiters, hne, hbspos⟩ := make_grid_ok hok
  refine ⟨gen_pull_n_all _, ?_, rfl, gen_pull_n_dead m, gen_pull_n_all _⟩
  rw [hiters, hbatch, py_ceil_iters_eq _ _ hbs, chunk_length]

/-- Witness for the C8 generator theorem at a concrete input. -/
theorem C8_generator_dead_after_exhaustion_witness :
    gen_pull_n grid_result_ex.grid_batches.length grid_result_ex.grid_batches
      = (grid_result_ex.grid_batches, []) ∧
    grid_result_ex.grid_iters = (grid_result_ex.grid_batches.length : ℤ) ∧
    gen_pull ([] : List (List (String × ℤ × ℤ × ℤ))) = .error "StopIteration" ∧
    gen_pull_n 1 ([] : List (List (String × ℤ × ℤ × ℤ))) = ([], []) ∧
    gen_pull_n (expand_v2_chunks 2 [("d", 1, 2, 3)]).length (expand_v2_chunks 2 [("d", 1, 2, 3)])
      = (expand_v2_chunks 2 [("d", 1, 2, 3)], []) :=
  C8_generator_dead_after_exhaustion ⟨3, 3, 3⟩ "c" 1 1 1 0 1 0 1 0 1 (some (1, 1, 1)) 2
    grid_result_ex (by decide) (by decide) 1 [("d", 1, 2, 3)]

/-! ## Claim C6 -/

/-- Claim C6 (confirmed; the mixture normalization is modelled from the spec,
section 4.1, since batchflow is outside the excerpt): in every combined sampler
built by `create_sampler`, every mixed component other than the zero-weight
seed is a per-cube sampler truncated to the unit cube `[0,1]^3` before mixing;
the effective (normalized) mixture weights sum to 1; and with no explicit
weights the raw weights are `1/num_volumes` for every volume and already sum
to 1. -/
theorem C6_sampler_mixture_invariants
    (indices : List String) (base : String → PySampler) (p : Option (List ℚ))
    (hne : indices ≠ [])
    (hlen : (resolve_p indices p).length = indices.length)
    (hpos : 0 < (resolve_p indices p).sum) :
    ((mixture_components (create_sampler indices base p).combined).tail.all
        is_unit_truncated_volume = true) ∧
    (effective_weights (create_sampler indices base p).combined).sum = 1 ∧
    (p = none →
      (mixture_components (create_sampler indices base p).combined).map Prod.fst
        = 0 :: indices.map (fun _ => 1 / (indices.length : ℚ)) ∧
      ((mixture_components (create_sampler indices base p).combined).map Prod.fst).sum = 1) := by
  have hcomps : mixture_components (create_sampler indices base p).combined
      = (0, PySampler.numpyS "n") ::
        ((indices.map (fun ix => (ix, PySampler.truncListS (base ix) [0, 0, 0] [1, 1, 1]))).zip
          (resolve_p indices p)).map
          (fun s => (s.2, PySampler.andS (PySampler.constantS s.1.1) (PySampler.applyS s.1.2))) := by
    simp only [create_sampler]
    rw [mixture_components_foldl]
    rfl
  have hfst : (mixture_components (create_sampler indices base p).combined).map Prod.fst
      = 0 :: resolve_p indices p := by
    rw [hcomps, List.map_cons, List.map_map]
    congr 1
    exact List.map_snd_zip _ _ (by rw [List.length_map]; omega)
  have hS : ((mixture_components (create_sampler indices base p).combined).map Prod.fst).sum
      = (resolve_p indices p).sum := by
    rw [hfst, List.sum_cons, zero_add]
  refine ⟨?_, ?_, ?_⟩
  · rw [hcomps]
    simp only [List.tail_cons, List.all_eq_true]
    intro x hx
    obtain ⟨⟨s1, w⟩, hs, rfl⟩ := List.mem_map.1 hx
    obtain ⟨hs1, hw⟩ := List.of_mem_zip hs
    obtain ⟨ix, hix, rfl⟩ := List.mem_map.1 hs1
    simp [is_unit_truncated_volume]
  · simp only [effective_weights]
    rw [sum_map_div, hS, div_self (ne_of_gt hpos)]
  · intro hp
    subst hp
    refine ⟨by rw [hfst]; rfl, ?_⟩
    rw [hfst, List.sum_cons, zero_add]
    show (resolve_p indices none).sum = 1
    have hn : ((indices.length : ℚ)) ≠ 0 := by
      have : indices.length ≠ 0 := fun h => hne (List.length_eq_zero.1 h)
      exact_mod_cast Nat.cast_ne_zero.2 this
    simp only [resolve_p]
    rw [List.map_const', List.sum_replicate, nsmul_eq_mul, mul_one_div_cancel hn]

/-- Witness for the C6 mixture theorem at a concrete input. -/
theorem C6_sampler_mixture_invariants_witness :
    ((mixture_components
        (create_sampler ["a", "b"] (fun _ => PySampler.numpyS "u") none).combined).tail.all
      is_unit_truncated_volume = true) ∧
    (effective_weights
        (create_sampler ["a", "b"] (fun _ => PySampler.numpyS "u") none).combined).sum = 1 ∧
    ((none : Option (List ℚ)) = none →
      (mixture_components
          (create_sampler ["a", "b"] (fun _ => PySampler.numpyS "u") none).combined).map Prod.fst
        = 0 :: ["a", "b"].map (fun _ => 1 / ((["a", "b"] : List String).length : ℚ)) ∧
      ((mixture_components
          (create_sampler ["a", "b"] (fun _ => PySampler.numpyS "u") none).combined).map
        Prod.fst).sum = 1) :=
  C6_sampler_mixture_invariants ["a", "b"] (fun _ => PySampler.numpyS "u") none
    (by decide) (by simp [resolve_p]) (by simp [resolve_p])

/-! ## Claim C7 -/

/-- Claim C7 is right about the intent but the code has a bug: supplying a
pre-seeded coverage matrix with more than one element makes
`np.zeros(...) if not coverage else coverage` raise numpy's ambiguous-truth
ValueError (the test should be `coverage is None`), so a caller-supplied
matrix is never used; with no matrix supplied the coverage does start as all
zeros of shape (ilines_len, xlines_len). -/
theorem C7_coverage_precheck_code_bug :
    expand_v2_coverage 2 2 (some [[1, 1], [1, 1]])
      = .error "The truth value of an array with more than one element is ambiguous." ∧
    expand_v2_coverage 2 2 none = .ok [[0, 0], [0, 0]] := by
  refine ⟨by decide, by decide⟩

/-! ## Claim C10 -/

/-- Claim C10 (confirmed): `modify_sampler` routes `low`/`high` through Python
`or` defaults, so a falsy low (None or 0) becomes 0 and a falsy high (None or
0, hence an explicit `high=0`) silently becomes 1, and when the resulting pair
is (0, 1) the region step adds no truncation at all to the source sampler. -/
theorem C10_modify_sampler_falsy_defaults
    (s : PySampler) (axis : ℕ) (low high : Option ℚ)
    (each : Option ℤ) (to_cube post : Bool)
    (hlow : low = none ∨ low = some 0) (hhigh : high = none ∨ high = some 0)
    (hsrc : has_axis_truncate s = false) :
    (modify_sampler s axis low high each to_cube post).low_used = 0 ∧
    (modify_sampler s axis low high each to_cube post).high_used = 1 ∧
    has_axis_truncate (modify_sampler s axis low high each to_cube post).sampler = false := by
  have hl : py_or_num low 0 = 0 := by rcases hlow with rfl | rfl <;> simp [py_or_num]
  have hh : py_or_num high 1 = 1 := by rcases hhigh with rfl | rfl <;> simp [py_or_num]
  refine ⟨?_, ?_, ?_⟩
  · simp [modify_sampler, hl, hh]
  · simp [modify_sampler, hl, hh]
  · simp only [modify_sampler, hl, hh]
    rcases each with _ | e <;> rcases to_cube <;> rcases post <;>
      simp [has_axis_truncate, hsrc]

/-- Witness for the C10 theorem at a concrete input: an explicit `high = 0` is
treated as `high = 1` and no truncation is applied. -/
theorem C10_modify_sampler_falsy_defaults_witness :
    (modify_sampler (PySampler.numpyS "u") 0 none (some 0) none false false).low_used = 0 ∧
    (modify_sampler (PySampler.numpyS "u") 0 none (some 0) none false false).high_used = 1 ∧
    has_axis_truncate
      (modify_sampler (PySampler.numpyS "u") 0 none (some 0) none false false).sampler = false :=
  C10_modify_sampler_falsy_defaults (PySampler.numpyS "u") 0 none (some 0) none false false
    (Or.inl rfl) (Or.inr rfl) (by decide)

end Seismiqb
